import Mathlib

/-!
Verification of the led-file-maker frame codec, traversal planner, container
header and export/playback paths.

The definitions below are shallow embeddings of the TypeScript/JavaScript
source:

* `mainGetRGB`    — the `getRGB` switch in the main-process export handler
                    (`ipcMain.on('export')`).  In the source each case binds
                    the three positional arguments (which are always the
                    source pixel's R, G, B in that order) to parameter names
                    chosen per format and returns `[r, g, b]`; the tuples
                    below are the result of that positional binding.
* `playerGetRGB`  — the identical switch in `Player.tsx` used on playback.
* `specFromCanonical` — NOT from the source: the channel-order table of the
                    specification (section 4.1), written from the spec's
                    words, kept for comparison with `mainGetRGB`.
* `plan`          — the pixel-reordering branches of the export handler,
                    expressed as the sequence of (row, col) grid positions
                    in the order the source pushes `pixels[row*width+col]`;
                    branches the source handles with `throw` become `.error`.
* `encodeFrame`   — the per-frame processing of the export handler: build
                    the `pixels` array via `getRGB`, then flatten it in
                    traversal order.
* `makeTwoBytesFromNumber`, `makeFormatBytes`, `headerBytes` — header
                    assembly of the export handler; `(n >> 8) & 0xFF` and
                    `n & 0xFF` on the nonnegative in-range numbers the
                    source passes are `(n / 256) % 256` and `n % 256`.
* `numberFromTwoBytes` — header parsing in `Player.tsx`;
                    `(hi << 8) | lo` equals `hi * 256 + lo` for byte inputs.
* `parseWbmHeader` — the header-field extraction in `handleOpenFile` of
                    `Player.tsx` (it has no failure path in the source).
* `decodeFrame`   — the per-frame playback loop of `Player.tsx` writing
                    RGBA bytes (alpha fixed at 255).
* `runExport`     — the control flow of the export frame loop around
                    failures: frames are processed sequentially; a failing
                    frame closes the writer and rethrows, skipping the
                    finalize (rename) step, and nothing deletes the temp
                    file on that path; only full success renames the temp
                    file onto the final path (deleting it as temp).
-/

namespace LedFileMaker

/-- The `StartCorner` union type from `fileFormat.ts`. -/
inductive StartCorner where
  | topLeft
  | topRight
  | bottomLeft
  | bottomRight
deriving DecidableEq, Repr

/-- The `PixelOrder` union type from `fileFormat.ts`. -/
inductive PixelOrder where
  | horizontal
  | vertical
  | horizontalAlternate
  | verticalAlternate
deriving DecidableEq, Repr

/-- The `FlipOptions` interface from `fileFormat.ts`. -/
structure FlipOptions where
  horizontal : Bool
  vertical : Bool
deriving DecidableEq, Repr

/-- The `ImageOptions` interface from `fileFormat.ts`. -/
structure ImageOptions where
  startCorner : StartCorner
  pixelOrder : PixelOrder
  flip : FlipOptions
deriving DecidableEq, Repr

/-- The `getRGB` switch of the main-process export handler.  Each source
case is `case 'fmt': getRGB = (p0, p1, p2) => [r, g, b]` where `(p0,p1,p2)`
is a permutation of the names `r,g,b`; the caller always passes the source
pixel's channels in (R, G, B) order, so the returned triple is obtained by
substituting the positional arguments `(x, y, z)` for the parameter names.
For example `case 'brg'` is `(b, r, g) => [r, g, b]`, which on arguments
`(x, y, z)` binds `b := x, r := y, g := z` and returns `(y, z, x)`. -/
def mainGetRGB (format : String) (x y z : Nat) : Nat × Nat × Nat :=
  if format = "rgb" then (x, y, z)
  else if format = "rbg" then (x, z, y)
  else if format = "bgr" then (z, y, x)
  else if format = "brg" then (y, z, x)
  else if format = "grb" then (y, x, z)
  else if format = "gbr" then (z, x, y)
  else (x, y, z)

/-- The `getRGB` switch of `Player.tsx` (playback).  The source text of the
switch is identical to the export one; the arguments are the three stored
bytes of one pixel, and the result is written to the canvas as (R, G, B). -/
def playerGetRGB (format : String) (x y z : Nat) : Nat × Nat × Nat :=
  if format = "rgb" then (x, y, z)
  else if format = "rbg" then (x, z, y)
  else if format = "bgr" then (z, y, x)
  else if format = "brg" then (y, z, x)
  else if format = "grb" then (y, x, z)
  else if format = "gbr" then (z, x, y)
  else (x, y, z)

/-- Modelled from the spec: the section 4.1 channel-order table, mapping a
canonical (r, g, b) pixel to the three output bytes named by the format
(e.g. `brg` writes bytes (b, r, g)).  Written from the spec's words for
comparison with `mainGetRGB`; it is not a source function. -/
def specFromCanonical (format : String) (r g b : Nat) : Nat × Nat × Nat :=
  if format = "rgb" then (r, g, b)
  else if format = "rbg" then (r, b, g)
  else if format = "bgr" then (b, g, r)
  else if format = "brg" then (b, r, g)
  else if format = "grb" then (g, r, b)
  else if format = "gbr" then (g, b, r)
  else (r, g, b)

/-- One source row of the pixel grid visited left to right:
the inner loop `for (col = 0; col < width; col++)` at a fixed row. -/
def ascRow (r w : Nat) : List (Nat × Nat) :=
  (List.range w).map (fun c => (r, c))

/-- One source column of the pixel grid visited top to bottom:
the inner loop `for (row = 0; row < height; row++)` at a fixed column. -/
def ascCol (c h : Nat) : List (Nat × Nat) :=
  (List.range h).map (fun r => (r, c))

/-- The pixel-reordering branches of the export handler, as the sequence of
(row, col) positions in the order the source pushes `pixels[row*width+col]`.
A descending loop is the `.reverse` of the ascending one, and a descending
outer loop traverses `(List.range _).reverse`.  The `row & 0x01` /
`col & 0x01` parity tests are `% 2 = 1`.  Branches where the source throws
`Unsupported pixel order ... for startCorner ...` are `.error` with that
message (quotes elided). -/
def plan (w h : Nat) : StartCorner → PixelOrder → Except String (List (Nat × Nat))
  | .topLeft, .horizontal =>
      -- `pixels.forEach(px => output.push(...px))`: pixel index p is grid
      -- cell (p / w, p % w), so index order is exactly row-major order.
      .ok ((List.range h).flatMap (fun r => ascRow r w))
  | .topLeft, .vertical =>
      .ok ((List.range w).flatMap (fun c => ascCol c h))
  | .topLeft, .horizontalAlternate =>
      .ok ((List.range h).flatMap (fun r =>
        if r % 2 = 1 then (ascRow r w).reverse else ascRow r w))
  | .topLeft, .verticalAlternate =>
      .error "Unsupported pixel order verticalAlternate for startCorner topLeft"
  | .topRight, .horizontal =>
      .ok ((List.range h).flatMap (fun r => (ascRow r w).reverse))
  | .topRight, .horizontalAlternate =>
      -- The source branch body is identical to the topLeft one: odd rows
      -- descend, even rows ascend.
      .ok ((List.range h).flatMap (fun r =>
        if r % 2 = 1 then (ascRow r w).reverse else ascRow r w))
  | .topRight, .vertical =>
      .error "Unsupported pixel order vertical for startCorner topRight"
  | .topRight, .verticalAlternate =>
      .error "Unsupported pixel order verticalAlternate for startCorner topRight"
  | .bottomLeft, .horizontal =>
      .ok ((List.range h).reverse.flatMap (fun r => ascRow r w))
  | .bottomLeft, .verticalAlternate =>
      .ok ((List.range w).flatMap (fun c =>
        if c % 2 = 1 then ascCol c h else (ascCol c h).reverse))
  | .bottomLeft, .vertical =>
      .error "Unsupported pixel order vertical for startCorner bottomLeft"
  | .bottomLeft, .horizontalAlternate =>
      .error "Unsupported pixel order horizontalAlternate for startCorner bottomLeft"
  | .bottomRight, .vertical =>
      .ok ((List.range w).reverse.flatMap (fun c => (ascCol c h).reverse))
  | .bottomRight, .verticalAlternate =>
      .ok ((List.range w).reverse.flatMap (fun c =>
        if c % 2 = 1 then ascCol c h else (ascCol c h).reverse))
  | .bottomRight, .horizontal =>
      .error "Unsupported pixel order horizontal for startCorner bottomRight"
  | .bottomRight, .horizontalAlternate =>
      .error "Unsupported pixel order horizontalAlternate for startCorner bottomRight"

/-- The `pixels` array built by the export handler: for each pixel index
`p < height * width` it reads the 3 leading bytes at `p * channels` and
applies the export `getRGB`. -/
def mkPixels (format : String) (data : List Nat) (w h channels : Nat) :
    List (Nat × Nat × Nat) :=
  (List.range (h * w)).map (fun p =>
    mainGetRGB format (data.getD (p * channels) 0)
      (data.getD (p * channels + 1) 0) (data.getD (p * channels + 2) 0))

/-- The per-frame processing of the export handler: build `pixels`, then
push `pixels[row*width+col]` (3 bytes) for every traversal entry.  The
source never reads `options.flip`; accordingly the result depends on
`opts` only through `opts.startCorner` and `opts.pixelOrder`. -/
def encodeFrame (format : String) (data : List Nat) (w h channels : Nat)
    (opts : ImageOptions) : Except String (List Nat) :=
  match plan w h opts.startCorner opts.pixelOrder with
  | .error e => .error e
  | .ok seq =>
      let pixels := mkPixels format data w h channels
      .ok (seq.flatMap (fun rc =>
        let px := pixels.getD (rc.1 * w + rc.2) (0, 0, 0)
        [px.1, px.2.1, px.2.2]))

/-- Function `makeTwoBytesFromNumber` from the export handler:
`[(number >> 8) & 0xFF, number & 0xFF]`, i.e. big-endian truncation to the
low 16 bits, with no range check. -/
def makeTwoBytesFromNumber (n : Nat) : List Nat :=
  [(n / 256) % 256, n % 256]

/-- Function `makeFormatBytes` from the export handler: the character codes of the
first three characters of the format string (a `ColorFormat` value always
has exactly three). -/
def makeFormatBytes (format : String) : List Nat :=
  (format.toList.map Char.toNat).take 3

/-- The 9 header bytes assembled by the export handler: frame count, width,
height (two bytes each), then the format bytes.  No value is validated. -/
def headerBytes (frameCount width height : Nat) (format : String) : List Nat :=
  makeTwoBytesFromNumber frameCount ++ makeTwoBytesFromNumber width ++
    makeTwoBytesFromNumber height ++ makeFormatBytes format

/-- Function `numberFromTwoBytes` from `Player.tsx`: `(highByte << 8) | lowByte`,
which for a low byte below 256 is `highByte * 256 + lowByte`. -/
def numberFromTwoBytes (hi lo : Nat) : Nat :=
  hi * 256 + lo

/-- The header-field extraction of `handleOpenFile` in `Player.tsx`:
frames, width, height from byte pairs and the format from the character
codes of bytes 6..8.  The source has no validation or failure path. -/
def parseWbmHeader (data : List Nat) : Nat × Nat × Nat × String :=
  (numberFromTwoBytes (data.getD 0 0) (data.getD 1 0),
   numberFromTwoBytes (data.getD 2 0) (data.getD 3 0),
   numberFromTwoBytes (data.getD 4 0) (data.getD 5 0),
   String.mk [Char.ofNat (data.getD 6 0), Char.ofNat (data.getD 7 0),
     Char.ofNat (data.getD 8 0)])

/-- One RGBA block of the playback decode loop of `Player.tsx`: pixel `i`
reads its own stored bytes at `i*3`, `i*3+1`, `i*3+2`, maps them through
the playback `getRGB`, and appends alpha 255. -/
def decodePixelBlock (format : String) (frameData : List Nat) (i : Nat) :
    List Nat :=
  let d := playerGetRGB format (frameData.getD (i * 3) 0)
    (frameData.getD (i * 3 + 1) 0) (frameData.getD (i * 3 + 2) 0)
  [d.1, d.2.1, d.2.2, 255]

/-- The playback decode loop of `Player.tsx`: the flat `imageData.data`
contents, 4 bytes per pixel for `numberOfPixels` pixels. -/
def decodeFrame (format : String) (frameData : List Nat)
    (numberOfPixels : Nat) : List Nat :=
  (List.range numberOfPixels).flatMap (decodePixelBlock format frameData)

/-- Terminal states of one export run (cancellation not triggered):
either the finalize path ran (temp file renamed onto the final path) or a
frame failed (writer closed, error rethrown, finalize skipped). -/
inductive ExportOutcome where
  | finished (finalBytes : List Nat)
  | errored (tempBytes : List Nat)
deriving DecidableEq, Repr

/-- The export frame loop of the main process: frames are processed in
order and appended to the already written bytes; a frame whose decode or
encode throws (modelled `none`) aborts the loop at that point. -/
def processFrames : List (Option (List Nat)) → List Nat → ExportOutcome
  | [], written => .finished written
  | none :: _, written => .errored written
  | some f :: rest, written => processFrames rest (written ++ f)

/-- One full export run: the header is written to the temp file first, then
the frames.  On full success the source renames the temp file onto the
final path; on a frame error the catch block closes the writer and
rethrows, and no code path deletes the temp file. -/
def runExport (header : List Nat) (frames : List (Option (List Nat))) :
    ExportOutcome :=
  processFrames frames header

/-- Whether a file remains at the temporary path after the run: the rename
on the finalize path removes it; the error path never unlinks it (only the
cancel path does, and cancellation is not an error). -/
def ExportOutcome.tempFileExists : ExportOutcome → Bool
  | .finished _ => false
  | .errored _ => true

/-- Whether this run placed a file at the final output path: only the
finalize path runs `renameSync(tempPath, outPath)`. -/
def ExportOutcome.finalFileWritten : ExportOutcome → Bool
  | .finished _ => true
  | .errored _ => false

/-- Whether the triggering error was surfaced (rethrown out of the frame
loop). -/
def ExportOutcome.errorSurfaced : ExportOutcome → Bool
  | .finished _ => false
  | .errored _ => true

/-! ### Counting and length lemmas for the traversal planner -/

theorem count_ascRow (r w pr pc : Nat) :
    (ascRow r w).count (pr, pc) = if pr = r ∧ pc < w then 1 else 0 := by
  induction w with
  | zero => simp [ascRow]
  | succ n ih =>
    have hsplit : ascRow r (n + 1) = ascRow r n ++ [(r, n)] := by
      simp [ascRow, List.range_succ]
    rw [hsplit, List.count_append, ih]
    simp only [List.count_cons, List.count_nil, beq_iff_eq, Prod.mk.injEq]
    split_ifs <;> omega

theorem count_ascCol (c h pr pc : Nat) :
    (ascCol c h).count (pr, pc) = if pc = c ∧ pr < h then 1 else 0 := by
  induction h with
  | zero => simp [ascCol]
  | succ n ih =>
    have hsplit : ascCol c (n + 1) = ascCol c n ++ [(n, c)] := by
      simp [ascCol, List.range_succ]
    rw [hsplit, List.count_append, ih]
    simp only [List.count_cons, List.count_nil, beq_iff_eq, Prod.mk.injEq]
    split_ifs <;> omega

theorem length_ascRow (r w : Nat) : (ascRow r w).length = w := by
  simp [ascRow]

theorem length_ascCol (c h : Nat) : (ascCol c h).length = h := by
  simp [ascCol]

/-- Counting elements in a row-major traversal: if every row block contains
each of its own row's cells with column below `w` exactly once, the whole
traversal contains each in-range grid cell exactly once. -/
theorem count_rows_flatMap (w h : Nat) (g : Nat → List (Nat × Nat))
    (hg : ∀ r pr pc, (g r).count (pr, pc) = if pr = r ∧ pc < w then 1 else 0)
    (pr pc : Nat) :
    ((List.range h).flatMap g).count (pr, pc) =
      if pr < h ∧ pc < w then 1 else 0 := by
  induction h with
  | zero => simp
  | succ n ih =>
    rw [List.range_succ, List.flatMap_append, List.count_append, ih]
    simp only [List.flatMap_cons, List.flatMap_nil, List.append_nil]
    rw [hg n pr pc]
    split_ifs <;> omega

/-- Column-major analogue of `count_rows_flatMap`. -/
theorem count_cols_flatMap (w h : Nat) (g : Nat → List (Nat × Nat))
    (hg : ∀ c pr pc, (g c).count (pr, pc) = if pc = c ∧ pr < h then 1 else 0)
    (pr pc : Nat) :
    ((List.range w).flatMap g).count (pr, pc) =
      if pr < h ∧ pc < w then 1 else 0 := by
  induction w with
  | zero => simp
  | succ n ih =>
    rw [List.range_succ, List.flatMap_append, List.count_append, ih]
    simp only [List.flatMap_cons, List.flatMap_nil, List.append_nil]
    rw [hg n pr pc]
    split_ifs <;> omega

/-- Reversing the outer loop does not change how often a cell is emitted. -/
theorem count_flatMap_reverse (l : List Nat)
    (g : Nat → List (Nat × Nat)) (a : Nat × Nat) :
    (l.reverse.flatMap g).count a = (l.flatMap g).count a := by
  induction l with
  | nil => simp
  | cons x xs ih =>
    simp only [List.reverse_cons, List.flatMap_append, List.flatMap_cons,
      List.flatMap_nil, List.append_nil, List.count_append]
    rw [ih]
    omega

/-- A traversal made of constant-length blocks has length
(number of blocks) * (block length). -/
theorem length_flatMap_const {α : Type} (l : List Nat) (g : Nat → List α)
    (k : Nat) (hg : ∀ x, (g x).length = k) :
    (l.flatMap g).length = l.length * k := by
  induction l with
  | nil => simp
  | cons x xs ih =>
    simp only [List.flatMap_cons, List.length_append, hg, ih, List.length_cons]
    ring

/-- Claim C9 — every sequence the planner returns is a permutation of the
grid: it has length `width*height` and emits each in-range cell exactly
once (and, by the count being zero, no out-of-range cell at all). -/
theorem plan_ok_is_grid_permutation (corner : StartCorner)
    (order : PixelOrder) (w h : Nat) (seq : List (Nat × Nat))
    (hok : plan w h corner order = .ok seq) :
    seq.length = w * h ∧
      ∀ r c, seq.count (r, c) = if r < h ∧ c < w then 1 else 0 := by
  cases corner <;> cases order <;>
    simp only [plan, Except.ok.injEq, reduceCtorEq] at hok <;> subst hok
  case topLeft.horizontal =>
    refine ⟨?_, ?_⟩
    · rw [length_flatMap_const _ _ w (fun r => length_ascRow r w)]
      simp [Nat.mul_comm]
    · intro r c
      exact count_rows_flatMap w h _ (fun r pr pc => count_ascRow r w pr pc) r c
  case topLeft.vertical =>
    refine ⟨?_, ?_⟩
    · rw [length_flatMap_const _ _ h (fun c => length_ascCol c h)]
      simp
    · intro r c
      exact count_cols_flatMap w h _ (fun c pr pc => count_ascCol c h pr pc) r c
  case topLeft.horizontalAlternate =>
    refine ⟨?_, ?_⟩
    · rw [length_flatMap_const _ _ w ?_]
      · simp [Nat.mul_comm]
      · intro r
        by_cases hr : r % 2 = 1 <;> simp [hr, length_ascRow]
    · intro r c
      refine count_rows_flatMap w h _ ?_ r c
      intro r' pr pc
      by_cases hr : r' % 2 = 1 <;>
        simp [hr, List.count_reverse, count_ascRow]
  case topRight.horizontal =>
    refine ⟨?_, ?_⟩
    · rw [length_flatMap_const _ _ w (fun r => by simp [length_ascRow])]
      simp [Nat.mul_comm]
    · intro r c
      refine count_rows_flatMap w h _ ?_ r c
      intro r' pr pc
      simp [List.count_reverse, count_ascRow]
  case topRight.horizontalAlternate =>
    refine ⟨?_, ?_⟩
    · rw [length_flatMap_const _ _ w ?_]
      · simp [Nat.mul_comm]
      · intro r
        by_cases hr : r % 2 = 1 <;> simp [hr, length_ascRow]
    · intro r c
      refine count_rows_flatMap w h _ ?_ r c
      intro r' pr pc
      by_cases hr : r' % 2 = 1 <;>
        simp [hr, List.count_reverse, count_ascRow]
  case bottomLeft.horizontal =>
    refine ⟨?_, ?_⟩
    · rw [length_flatMap_const _ _ w (fun r => length_ascRow r w)]
      simp [Nat.mul_comm]
    · intro r c
      rw [count_flatMap_reverse]
      exact count_rows_flatMap w h _ (fun r pr pc => count_ascRow r w pr pc) r c
  case bottomLeft.verticalAlternate =>
    refine ⟨?_, ?_⟩
    · rw [length_flatMap_const _ _ h ?_]
      · simp
      · intro c
        by_cases hc : c % 2 = 1 <;> simp [hc, length_ascCol]
    · intro r c
      refine count_cols_flatMap w h _ ?_ r c
      intro c' pr pc
      by_cases hc : c' % 2 = 1 <;>
        simp [hc, List.count_reverse, count_ascCol]
  case bottomRight.vertical =>
    refine ⟨?_, ?_⟩
    · rw [length_flatMap_const _ _ h (fun c => by simp [length_ascCol])]
      simp
    · intro r c
      rw [count_flatMap_reverse]
      refine count_cols_flatMap w h _ ?_ r c
      intro c' pr pc
      simp [List.count_reverse, count_ascCol]
  case bottomRight.verticalAlternate =>
    refine ⟨?_, ?_⟩
    · rw [length_flatMap_const _ _ h ?_]
      · simp
      · intro c
        by_cases hc : c % 2 = 1 <;> simp [hc, length_ascCol]
    · intro r c
      rw [count_flatMap_reverse]
      refine count_cols_flatMap w h _ ?_ r c
      intro c' pr pc
      by_cases hc : c' % 2 = 1 <;>
        simp [hc, List.count_reverse, count_ascCol]

/-- Witness for `plan_ok_is_grid_permutation` at `(topLeft, horizontal)`,
`width = 2`, `height = 3`. -/
theorem plan_ok_is_grid_permutation_witness :
    ([(0, 0), (0, 1), (1, 0), (1, 1), (2, 0), (2, 1)] :
        List (Nat × Nat)).length = 2 * 3 ∧
      ([(0, 0), (0, 1), (1, 0), (1, 1), (2, 0), (2, 1)] :
        List (Nat × Nat)).count (1, 1) = 1 := by
  have hperm := plan_ok_is_grid_permutation StartCorner.topLeft
    PixelOrder.horizontal 2 3
    [(0, 0), (0, 1), (1, 0), (1, 1), (2, 0), (2, 1)] (by rfl)
  refine ⟨hperm.1, ?_⟩
  have := hperm.2 1 1
  simpa using this

/-! ### Indexed access into the playback RGBA buffer -/

/-- Accessing byte `i * 4 + j` of a concatenation of 4-byte blocks over
`List.range' s n` lands in block `s + i` at offset `j`. -/
theorem getD_flatMap_range' {α : Type} (d : α) (f : Nat → List α)
    (hf : ∀ k, (f k).length = 4) :
    ∀ (n s i j : Nat), i < n → j < 4 →
      ((List.range' s n).flatMap f).getD (i * 4 + j) d = (f (s + i)).getD j d := by
  intro n
  induction n with
  | zero =>
    intro s i j hi _
    exact absurd hi (by omega)
  | succ m ih =>
    intro s i j hi hj
    rw [List.range'_succ, List.flatMap_cons]
    cases i with
    | zero =>
      rw [List.getD_append _ _ _ _ (by rw [hf]; omega)]
      simp
    | succ i' =>
      rw [List.getD_append_right _ _ _ _ (by rw [hf]; omega)]
      have hidx : (i' + 1) * 4 + j - (f s).length = i' * 4 + j := by
        rw [hf]; omega
      rw [hidx, ih (s + 1) i' j (by omega) hj]
      have harg : s + 1 + i' = s + (i' + 1) := by omega
      rw [harg]

/-! ### Claim theorems -/

/-- Claim C1 (code_bug evaluation).  The spec's section 4.1 table scenario
for `bgr` does hold of the export `getRGB` (first conjunct: the 2x2 source
encodes to exactly the claimed bytes), but for `brg` the export switch
emits `(g, b, r)` where the table demands `(b, r, g)`: at the canonical
pixel (10, 20, 30) the code produces (20, 30, 10) while the table —
mirrored by `specFromCanonical` — produces (30, 10, 20). -/
theorem export_channel_order_diverges_from_table :
    encodeFrame "bgr" [10, 20, 30, 40, 50, 60, 70, 80, 90, 100, 110, 120]
        2 2 3 ⟨.topLeft, .horizontal, ⟨false, false⟩⟩ =
      .ok [30, 20, 10, 60, 50, 40, 90, 80, 70, 120, 110, 100] ∧
    mainGetRGB "brg" 10 20 30 = (20, 30, 10) ∧
    specFromCanonical "brg" 10 20 30 = (30, 10, 20) ∧
    mainGetRGB "brg" 10 20 30 ≠ specFromCanonical "brg" 10 20 30 := by
  refine ⟨by rfl, by rfl, by rfl, by decide⟩

/-- Claim C2 (code_bug evaluation).  Encode and playback apply the same
(not mutually inverse) permutation, so the encode-then-decode round trip is
the identity only for the four involutive formats; for `brg` the canonical
pixel (10, 20, 30) is stored as (20, 30, 10) and then displayed as
(30, 10, 20), not as its original value. -/
theorem roundTrip_brg_not_identity :
    mainGetRGB "brg" 10 20 30 = (20, 30, 10) ∧
    playerGetRGB "brg" 20 30 10 = (30, 10, 20) ∧
    (30, 10, 20) ≠ ((10, 20, 30) : Nat × Nat × Nat) := by
  refine ⟨by rfl, by rfl, by decide⟩

/-- Claim C3 (code_bug).  The export frame loop never reads
`options.flip`: the encoded output is independent of the flip settings
(first conjunct), and at the concrete 2x1 frame with pixels (1, 2, 3),
(4, 5, 6) and `flip.horizontal = true` the code emits the unmirrored bytes
1, 2, 3, 4, 5, 6 instead of the mirrored 4, 5, 6, 1, 2, 3 the claim
requires. -/
theorem export_ignores_flip :
    (∀ (format : String) (data : List Nat) (w h channels : Nat)
      (corner : StartCorner) (order : PixelOrder) (f₁ f₂ : FlipOptions),
        encodeFrame format data w h channels ⟨corner, order, f₁⟩ =
          encodeFrame format data w h channels ⟨corner, order, f₂⟩) ∧
    encodeFrame "rgb" [1, 2, 3, 4, 5, 6] 2 1 3
        ⟨.topLeft, .horizontal, ⟨true, false⟩⟩ = .ok [1, 2, 3, 4, 5, 6] ∧
    .ok [1, 2, 3, 4, 5, 6] ≠
      (.ok [4, 5, 6, 1, 2, 3] : Except String (List Nat)) := by
  exact ⟨fun _ _ _ _ _ _ _ _ _ => rfl, by rfl, by simp⟩

/-- Claim C4 (counterexample).  The pair (topLeft, verticalAlternate) is
not legal: at width = height = 2 the export branch throws its
unsupported-pixel-order error instead of emitting a column-major snake. -/
theorem plan_topLeft_verticalAlternate_errors_at_2x2 :
    plan 2 2 .topLeft .verticalAlternate =
      .error "Unsupported pixel order verticalAlternate for startCorner topLeft" := by
  rfl

/-- Claim C4 (amended).  For every width and height,
plan(width, height, topLeft, verticalAlternate) fails with the
configuration error naming the offending combination; the pair is
illegal, never traversed. -/
theorem plan_topLeft_verticalAlternate_always_errors (w h : Nat) :
    plan w h .topLeft .verticalAlternate =
      .error "Unsupported pixel order verticalAlternate for startCorner topLeft" := by
  rfl

/-- Claim C5 (code_bug evaluation).  The (topRight, horizontalAlternate)
branch is identical to the topLeft one (first conjunct), so even-indexed
rows ascend: at width = height = 2 the emitted order is
(0,0), (0,1), (1,1), (1,0), whereas the claim requires row 0 to descend
from column 1. -/
theorem plan_topRight_horizontalAlternate_even_rows_ascend :
    (∀ w h, plan w h .topRight .horizontalAlternate =
      plan w h .topLeft .horizontalAlternate) ∧
    plan 2 2 .topRight .horizontalAlternate =
      .ok [(0, 0), (0, 1), (1, 1), (1, 0)] := by
  exact ⟨fun _ _ => rfl, by rfl⟩

/-- Claim C6 (counterexample).  With the unrecognized 3-byte code "xyz"
the playback header parse succeeds (it has no failure path) and the decode
switch falls through to its default, returning the stored bytes unchanged —
pass-through RGB, exactly what the claim says never happens. -/
theorem player_unknown_format_passthrough_at_xyz :
    parseWbmHeader [0, 1, 0, 2, 0, 2, 120, 121, 122] = (1, 2, 2, "xyz") ∧
    playerGetRGB "xyz" 1 2 3 = (1, 2, 3) := by
  refine ⟨by rfl, by rfl⟩

/-- Claim C6 (amended).  The playback path performs no format validation:
any format code outside the six defined ones is decoded by the default
branch as pass-through RGB. -/
theorem player_unknown_format_passthrough (format : String) (a b c : Nat)
    (h1 : format ≠ "rgb") (h2 : format ≠ "rbg") (h3 : format ≠ "bgr")
    (h4 : format ≠ "brg") (h5 : format ≠ "grb") (h6 : format ≠ "gbr") :
    playerGetRGB format a b c = (a, b, c) := by
  simp [playerGetRGB, h1, h2, h3, h4, h5, h6]

/-- Witness for `player_unknown_format_passthrough` at format "xyz". -/
theorem player_unknown_format_passthrough_witness :
    playerGetRGB "xyz" 4 5 6 = (4, 5, 6) :=
  player_unknown_format_passthrough "xyz" 4 5 6 (by decide) (by decide)
    (by decide) (by decide) (by decide) (by decide)

/-- Claim C7 (counterexample).  When the second frame's decode throws, the
export aborts and nothing reaches the final path, but the temporary file is
NOT deleted: the catch block only closes the writer and rethrows, and the
unlink runs only on the cancellation path. -/
theorem export_error_leaves_temp_file_at_concrete_run :
    (runExport [0, 1] [some [5], none]).tempFileExists = true ∧
    (runExport [0, 1] [some [5], none]).finalFileWritten = false := by
  refine ⟨by rfl, by rfl⟩

/-- Frames containing a failing decode always drive the frame loop into the
errored terminal state. -/
theorem processFrames_mem_none_errored :
    ∀ (frames : List (Option (List Nat))) (written : List Nat),
      none ∈ frames → ∃ tb, processFrames frames written = .errored tb := by
  intro frames
  induction frames with
  | nil => intro written h; simp at h
  | cons x xs ih =>
    intro written h
    cases x with
    | none => exact ⟨written, rfl⟩
    | some f =>
      have hx : none ∈ xs := by simpa using h
      exact ih (written ++ f) hx

/-- Claim C7 (amended).  A frame failure mid-export aborts the run,
surfaces the error, and never places a file at the final output path — but
the temporary file is left on disk, not deleted (deletion happens only on
user cancellation). -/
theorem export_error_aborts_and_leaves_temp (header : List Nat)
    (frames : List (Option (List Nat))) (hfail : none ∈ frames) :
    (runExport header frames).errorSurfaced = true ∧
    (runExport header frames).finalFileWritten = false ∧
    (runExport header frames).tempFileExists = true := by
  obtain ⟨tb, htb⟩ := processFrames_mem_none_errored frames header hfail
  rw [runExport, htb]
  exact ⟨rfl, rfl, rfl⟩

/-- Witness for `export_error_aborts_and_leaves_temp` at a concrete run. -/
theorem export_error_aborts_and_leaves_temp_witness :
    (runExport [9, 9] [some [1, 2, 3], none, some [4]]).errorSurfaced = true ∧
    (runExport [9, 9] [some [1, 2, 3], none, some [4]]).finalFileWritten = false ∧
    (runExport [9, 9] [some [1, 2, 3], none, some [4]]).tempFileExists = true :=
  export_error_aborts_and_leaves_temp [9, 9] [some [1, 2, 3], none, some [4]]
    (by decide)

/-- Claim C8 (counterexample).  With frameCount = 70000 (above 65535) the
header assembly still produces 9 bytes — the two count bytes are the
silently truncated 70000 mod 65536 = 4464 = (17, 112) — and with
frameCount = 0 it likewise produces bytes; no `OutOfRange` failure
exists. -/
theorem headerBytes_out_of_range_still_produces_bytes :
    headerBytes 70000 2 2 "rgb" = [17, 112, 0, 2, 0, 2, 114, 103, 98] ∧
    headerBytes 0 2 2 "rgb" = [0, 0, 0, 2, 0, 2, 114, 103, 98] := by
  refine ⟨by rfl, by rfl⟩

/-- Claim C8 (amended).  `writeHeader` never fails: each numeric field is
silently truncated to its low 16 bits (big-endian), zero included, and the
header always has 9 bytes for a 3-character format. -/
theorem headerBytes_truncates_mod_65536 (frameCount width height : Nat)
    (format : String) (hfmt : format.length = 3) :
    (headerBytes frameCount width height format).length = 9 ∧
    numberFromTwoBytes ((makeTwoBytesFromNumber frameCount).getD 0 0)
        ((makeTwoBytesFromNumber frameCount).getD 1 0) = frameCount % 65536 ∧
    numberFromTwoBytes ((makeTwoBytesFromNumber width).getD 0 0)
        ((makeTwoBytesFromNumber width).getD 1 0) = width % 65536 ∧
    numberFromTwoBytes ((makeTwoBytesFromNumber height).getD 0 0)
        ((makeTwoBytesFromNumber height).getD 1 0) = height % 65536 := by
  refine ⟨?_, ?_, ?_, ?_⟩
  · have hlen : (makeFormatBytes format).length = 3 := by
      simp [makeFormatBytes]
      omega
    simp [headerBytes, makeTwoBytesFromNumber, hlen]
  · show ((frameCount / 256) % 256) * 256 + frameCount % 256 = frameCount % 65536
    omega
  · show ((width / 256) % 256) * 256 + width % 256 = width % 65536
    omega
  · show ((height / 256) % 256) * 256 + height % 256 = height % 65536
    omega

/-- Witness for `headerBytes_truncates_mod_65536` at frameCount 70000. -/
theorem headerBytes_truncates_mod_65536_witness :
    (headerBytes 70000 2 2 "rgb").length = 9 ∧
    numberFromTwoBytes ((makeTwoBytesFromNumber 70000).getD 0 0)
        ((makeTwoBytesFromNumber 70000).getD 1 0) = 70000 % 65536 ∧
    numberFromTwoBytes ((makeTwoBytesFromNumber 2).getD 0 0)
        ((makeTwoBytesFromNumber 2).getD 1 0) = 2 % 65536 ∧
    numberFromTwoBytes ((makeTwoBytesFromNumber 2).getD 0 0)
        ((makeTwoBytesFromNumber 2).getD 1 0) = 2 % 65536 :=
  headerBytes_truncates_mod_65536 70000 2 2 "rgb" (by decide)

/-- Claim C10.  Every pixel of the playback RGBA buffer is fully opaque
(alpha byte 255), and its R, G, B bytes are the playback channel map of
that pixel's own three stored bytes — independent of every other byte. -/
theorem decodeFrame_alpha_opaque_and_local (format : String)
    (frameData : List Nat) (n i : Nat) (hi : i < n) :
    (decodeFrame format frameData n).getD (i * 4 + 3) 0 = 255 ∧
    ((decodeFrame format frameData n).getD (i * 4) 0,
     (decodeFrame format frameData n).getD (i * 4 + 1) 0,
     (decodeFrame format frameData n).getD (i * 4 + 2) 0) =
      playerGetRGB format (frameData.getD (i * 3) 0)
        (frameData.getD (i * 3 + 1) 0) (frameData.getD (i * 3 + 2) 0) := by
  have hblock : ∀ k, (decodePixelBlock format frameData k).length = 4 :=
    fun k => rfl
  have key : ∀ j, j < 4 →
      (decodeFrame format frameData n).getD (i * 4 + j) 0 =
        (decodePixelBlock format frameData i).getD j 0 := by
    intro j hj
    rw [decodeFrame, List.range_eq_range']
    have h := getD_flatMap_range' 0 _ hblock n 0 i j hi hj
    simpa using h
  refine ⟨by rw [key 3 (by omega)]; rfl, ?_⟩
  have h0 : (decodeFrame format frameData n).getD (i * 4) 0 =
      (decodePixelBlock format frameData i).getD 0 0 := by
    have := key 0 (by omega)
    simpa using this
  rw [h0, key 1 (by omega), key 2 (by omega)]
  rfl

/-- Witness for `decodeFrame_alpha_opaque_and_local` at "bgr", a 2-pixel
frame, pixel index 1. -/
theorem decodeFrame_alpha_opaque_and_local_witness :
    (decodeFrame "bgr" [1, 2, 3, 4, 5, 6] 2).getD (1 * 4 + 3) 0 = 255 ∧
    ((decodeFrame "bgr" [1, 2, 3, 4, 5, 6] 2).getD (1 * 4) 0,
     (decodeFrame "bgr" [1, 2, 3, 4, 5, 6] 2).getD (1 * 4 + 1) 0,
     (decodeFrame "bgr" [1, 2, 3, 4, 5, 6] 2).getD (1 * 4 + 2) 0) =
      playerGetRGB "bgr" (([1, 2, 3, 4, 5, 6] : List Nat).getD (1 * 3) 0)
        (([1, 2, 3, 4, 5, 6] : List Nat).getD (1 * 3 + 1) 0)
        (([1, 2, 3, 4, 5, 6] : List Nat).getD (1 * 3 + 2) 0) :=
  decodeFrame_alpha_opaque_and_local "bgr" [1, 2, 3, 4, 5, 6] 2 1 (by decide)

end LedFileMaker
